import Mathlib

/-!
Verification development for the gutter-theory backend: a shallow embedding
of the session store (`backend/app/state.py`), the geometry helpers
(`backend/app/utils.py`) and the websocket protocol engine fragments of
`backend/app/main.py` that the stated properties concern.

Modelling conventions:
* Python `UUID` values are opaque identities, embedded as `Nat`.
* Python `dict` (insertion ordered) is embedded as an association list;
  assignment updates an existing key in place or appends a fresh key,
  matching CPython dict semantics.
* Wall-clock readings (`datetime.now`) are passed explicitly as a rational
  `now` parameter; timestamps are rationals (seconds).
* Float arithmetic is abstracted to exact rationals.  The transcendental
  haversine / bearing computations are abstracted as function parameters;
  `heading_delta`, zone bucketing and all control flow are embedded exactly.
-/

/-- Lookup in an insertion-ordered association table (Python `dict.get`). -/
def dictGet {κ α : Type} [DecidableEq κ] : List (κ × α) → κ → Option α
  | [], _ => none
  | kv :: rest, k => if kv.1 = k then some kv.2 else dictGet rest k

/-- Assignment `m[k] = v` on an insertion-ordered table: an existing key is
updated in place, a fresh key is appended (CPython dict semantics). -/
def dictSet {κ α : Type} [DecidableEq κ] (m : List (κ × α)) (k : κ) (v : α) :
    List (κ × α) :=
  if m.any (fun kv => kv.1 = k) then
    m.map (fun kv => if kv.1 = k then (k, v) else kv)
  else m ++ [(k, v)]

/-- Python `m.pop(k, None)`: remove the entry for `k` when present. -/
def dictPop {κ α : Type} [DecidableEq κ] (m : List (κ × α)) (k : κ) :
    List (κ × α) :=
  m.filter (fun kv => kv.1 ≠ k)

/-! ### Geometry helpers (`backend/app/utils.py`) -/

/-- Python float modulus `a % b` for `b > 0`: `a - b * floor (a / b)`. -/
def fmod (a b : ℚ) : ℚ := a - b * ⌊a / b⌋

/-- Function `heading_delta` from `utils.py`: shortest-arc angular difference,
`diff = abs(a - b) % 360; 360 - diff if diff > 180 else diff`. -/
def heading_delta (a b : ℚ) : ℚ :=
  let diff := fmod |a - b| 360
  if diff > 180 then 360 - diff else diff

/-- Python `round` to an integer: round half to even (banker's rounding). -/
def roundHalfEven (x : ℚ) : ℤ :=
  if x - ⌊x⌋ < 1 / 2 then ⌊x⌋
  else if x - ⌊x⌋ > 1 / 2 then ⌊x⌋ + 1
  else if ⌊x⌋ % 2 = 0 then ⌊x⌋ else ⌊x⌋ + 1

/-- Decimal digits (after the point) of a value `fp / 1000`, `fp < 1000`,
with trailing zeros trimmed, as Python float repr prints them. -/
def fracDigits (fp : Nat) : String :=
  if fp % 10 ≠ 0 then
    (if fp < 10 then "00" else if fp < 100 then "0" else "") ++ toString fp
  else if fp % 100 ≠ 0 then
    (if fp / 10 < 10 then "0" else "") ++ toString (fp / 10)
  else toString (fp / 100)

/-- Render the rational `m / 1000` the way Python prints the float
`round(x, 3)`: an integer part, then fractional digits without trailing
zeros, with at least one fractional digit (`"1.0"`, `"0.123"`, `"0.05"`). -/
def fmt3 (m : ℤ) : String :=
  let sign := if m < 0 then "-" else ""
  let n := m.natAbs
  if n % 1000 = 0 then sign ++ toString (n / 1000) ++ ".0"
  else sign ++ toString (n / 1000) ++ "." ++ fracDigits (n % 1000)

/-- Function `zone_key` from `utils.py`: latitude and longitude rounded to 3 decimal
places, concatenated with `:`. -/
def zone_key (lat lon : ℚ) : String :=
  fmt3 (roundHalfEven (lat * 1000)) ++ ":" ++ fmt3 (roundHalfEven (lon * 1000))

/-- Function `zone_label` from `utils.py`: bucket the absolute scaled coordinates
into 9 rings via modulo arithmetic (`int` truncation equals `floor` on the
non-negative scaled values). -/
def zone_label (lat lon : ℚ) : String :=
  let lat_bucket := (⌊|lat| * 1000⌋).toNat
  let lon_bucket := (⌊|lon| * 1000⌋).toNat
  let ring := (lat_bucket + lon_bucket) % 9 + 1
  "GRID-" ++ toString ring

/-! ### Data model (`backend/app/state.py`, `backend/app/models.py`) -/

/-- Dataclass `state.Player`. -/
structure Player where
  id : Nat
  name : String
  lat : ℚ
  lon : ℚ
  heading : ℚ
  zone_key : Option String
  zone_label : Option String
  last_seen : ℚ
deriving DecidableEq, Repr

/-- Model `models.PlayerState`, the wire snapshot of a participant. -/
structure PlayerState where
  id : Nat
  name : String
  lat : ℚ
  lon : ℚ
  heading : ℚ
  zone_key : Option String
  zone_label : Option String
  last_seen : ℚ
deriving DecidableEq, Repr

/-- Method `Player.to_state` from `state.py`. -/
def Player.to_state (p : Player) : PlayerState :=
  ⟨p.id, p.name, p.lat, p.lon, p.heading, p.zone_key, p.zone_label, p.last_seen⟩

/-- Dataclass `state.Lobby`: the `players` dict is insertion ordered. -/
structure Lobby where
  id : Nat
  code : String
  name : String
  mode : String
  players : List (Nat × Player)
deriving DecidableEq, Repr

/-- The `LobbyStore._lobbies` table, keyed by lobby code. -/
abbrev Store := List (String × Lobby)

def MAX_PLAYERS : Nat := 16

/-- Constant `STALE_AFTER = timedelta(seconds=10)`, in seconds. -/
def STALE_AFTER : ℚ := 10

/-! ### `LobbyStore` operations (`backend/app/state.py`)

Each operation runs under the store's single lock, so it is embedded as a
pure function from the store value (plus the wall-clock reading `now`) to
its result and the updated store. -/

/-- Method `LobbyStore._prune_stale_locked`: drop every player whose
`now - last_seen` exceeds `STALE_AFTER`; the others keep their order. -/
def _prune_stale_locked (now : ℚ) (lobby : Lobby) : Lobby :=
  { lobby with
    players := lobby.players.filter (fun kv => now - kv.2.last_seen ≤ STALE_AFTER) }

/-- Method `LobbyStore.get_lobby`. -/
def get_lobby (s : Store) (code : String) : Option Lobby :=
  dictGet s code

/-- Method `LobbyStore.list_players`: empty list for an unknown code, otherwise
prune the lobby in place and snapshot the remaining players. -/
def list_players (s : Store) (code : String) (now : ℚ) :
    List PlayerState × Store :=
  match dictGet s code with
  | none => ([], s)
  | some lobby =>
    let lobby' := _prune_stale_locked now lobby
    (lobby'.players.map (fun kv => kv.2.to_state), dictSet s code lobby')

/-- Result of `LobbyStore.join_lobby`: `None` (unknown code),
`ValueError("lobby_full")`, or the lobby. -/
inductive JoinResult where
  | notFound : JoinResult
  | full : JoinResult
  | ok (lobby : Lobby) : JoinResult
deriving DecidableEq, Repr

/-- Method `LobbyStore.join_lobby`: reject an unknown code, reject when the lobby
already holds `MAX_PLAYERS` entries (no staleness sweep), otherwise write a
fresh participant at the neutral defaults. -/
def join_lobby (s : Store) (code : String) (player_id : Nat) (name : String)
    (now : ℚ) : JoinResult × Store :=
  match dictGet s code with
  | none => (.notFound, s)
  | some lobby =>
    if MAX_PLAYERS ≤ lobby.players.length then (.full, s)
    else
      let lobby' := { lobby with
        players := dictSet lobby.players player_id
          ⟨player_id, name, 0, 0, 0, none, none, now⟩ }
      (.ok lobby', dictSet s code lobby')

/-- Method `LobbyStore.leave_lobby`: `pop(player_id, None)` on the roster;
absent ids are a no-op. -/
def leave_lobby (s : Store) (code : String) (player_id : Nat) :
    Option Lobby × Store :=
  match dictGet s code with
  | none => (none, s)
  | some lobby =>
    let lobby' := { lobby with players := dictPop lobby.players player_id }
    (some lobby', dictSet s code lobby')

/-- Python `value or default` on an `Optional[str]`: `None` and the empty
string are falsy, any other string is kept. -/
def strOr (v : Option String) (d : String) : String :=
  match v with
  | none => d
  | some str => if str = "" then d else str

/-- Method `LobbyStore.upsert_presence`: for a known lobby, unconditionally
create-or-replace the participant record (zone fields resolved with Python
`or` against the derived bucketing), then run the staleness sweep and
return the stored record's snapshot. -/
def upsert_presence (s : Store) (code : String) (player_id : Nat)
    (name : String) (lat lon heading : ℚ)
    (zone_key_value zone_label_value : Option String) (now : ℚ) :
    Option PlayerState × Store :=
  match dictGet s code with
  | none => (none, s)
  | some lobby =>
    let resolved_zone_key := strOr zone_key_value (zone_key lat lon)
    let resolved_zone_label := strOr zone_label_value (zone_label lat lon)
    let lobby' := _prune_stale_locked now
      { lobby with
        players := dictSet lobby.players player_id
          ⟨player_id, name, lat, lon, heading,
            some resolved_zone_key, some resolved_zone_label, now⟩ }
    ((dictGet lobby'.players player_id).map Player.to_state,
      dictSet s code lobby')

/-- The 36-symbol code alphabet `string.ascii_uppercase + string.digits`. -/
def ALPHABET : List Char := "ABCDEFGHIJKLMNOPQRSTUVWXYZ0123456789".toList

/-- Code candidate of attempt `t`: four symbols drawn from the random
stream `pick` (`random.choices(..., k=4)`). -/
def codeAt (pick : Nat → Char) (t : Nat) : String :=
  String.mk [pick (4 * t), pick (4 * t + 1), pick (4 * t + 2), pick (4 * t + 3)]

/-- Method `LobbyStore._generate_code`: retry from attempt `t` until the candidate
does not collide with a live code.  The Python loop is unbounded; `fuel`
bounds the embedding, `none` meaning the loop has not yet terminated. -/
def _generate_code (pick : Nat → Char) (s : Store) : Nat → Nat → Option String
  | _, 0 => none
  | t, fuel + 1 =>
    let code := codeAt pick t
    if (dictGet s code).isSome then _generate_code pick s (t + 1) fuel
    else some code

/-- Method `LobbyStore.create_lobby`: generate a fresh code and register the lobby
with the host enrolled at the neutral defaults.  `lobby_id` stands for
`uuid4()`. -/
def create_lobby (pick : Nat → Char) (fuel : Nat) (s : Store)
    (name mode : String) (host_id : Nat) (host_name : String)
    (lobby_id : Nat) (now : ℚ) : Option (Lobby × Store) :=
  match _generate_code pick s 0 fuel with
  | none => none
  | some code =>
    let lobby : Lobby :=
      ⟨lobby_id, code, name, mode,
        [(host_id, ⟨host_id, host_name, 0, 0, 0, none, none, now⟩)]⟩
    some (lobby, dictSet s code lobby)

/-- The `last_seen` field of a participant as stored, when present. -/
def lastSeenOf (s : Store) (code : String) (player_id : Nat) : Option ℚ :=
  (dictGet s code).bind fun lobby =>
    (dictGet lobby.players player_id).map (fun p => p.last_seen)

/-! ### Connection fabric (`ConnectionManager` in `backend/app/state.py`)

Only the registration bookkeeping matters for the stated properties; a
room is the list of registered participant ids (transport handles carry no
further observable state here). -/

abbrev Fabric := List (String × List Nat)

/-- Method `ConnectionManager.connect`: register under `(code, player_id)`. -/
def fabricConnect (f : Fabric) (code : String) (player_id : Nat) : Fabric :=
  match dictGet f code with
  | none => dictSet f code [player_id]
  | some room =>
    dictSet f code (if player_id ∈ room then room else room ++ [player_id])

/-- Method `ConnectionManager.disconnect`: drop the registration when present;
a missing room is a no-op. -/
def fabricDisconnect (f : Fabric) (code : String) (player_id : Nat) : Fabric :=
  match dictGet f code with
  | none => f
  | some room => dictSet f code (room.filter (fun pid => pid ≠ player_id))

/-! ### Protocol engine fragments (`backend/app/main.py`)

Outbound traffic is recorded as a list of emitted events; `broadcast` and
`send_to` payloads are summarized by the fields the properties mention. -/

/-- Outbound events the engine can emit while handling a message or a
connection teardown. -/
inductive Event where
  | joinEv (player_id : Nat) : Event
  | leaveEv (player_id : Nat) : Event
  | presenceEv (ps : PlayerState) : Event
  | shotEv (from_id : Nat) (heading range_m : ℚ) : Event
  | hitEv (from_id to_id : Nat) (distance_m : ℚ) : Event
  | errorEv (message : String) : Event
  | pongEv : Event
deriving DecidableEq, Repr

/-- Whether the per-connection message loop keeps running afterwards. -/
inductive LoopDirective where
  | continueLoop : LoopDirective
  | closeLoop : LoopDirective
deriving DecidableEq, Repr

/-- The `presence` branch of the websocket message loop: call
`upsert_presence`; broadcast the canonical echo when it returned a
snapshot, otherwise do nothing.  The loop always continues. -/
def handlePresence (s : Store) (code : String) (player_id : Nat)
    (name : String) (lat lon heading : ℚ) (zk zl : Option String)
    (now : ℚ) : Store × List Event × LoopDirective :=
  let r := upsert_presence s code player_id name lat lon heading zk zl now
  match r.1 with
  | some ps => (r.2, [Event.presenceEv ps], .continueLoop)
  | none => (r.2, [], .continueLoop)

/-- Why the websocket message loop ended. -/
inductive ExitCause where
  | peerClose : ExitCause
  | fault : ExitCause
deriving DecidableEq, Repr

/-- Combined post-state of the teardown handlers. -/
structure TeardownResult where
  fabric : Fabric
  store : Store
  events : List Event
deriving Repr

/-- The two `except` arms closing the websocket loop in
`websocket_endpoint`: `WebSocketDisconnect` (peer close) disconnects the
fabric registration, removes the participant from the store and broadcasts
`leave`; any other exception only disconnects the fabric registration. -/
def onLoopExit (cause : ExitCause) (f : Fabric) (s : Store) (code : String)
    (player_id : Nat) : TeardownResult :=
  match cause with
  | .peerClose =>
    let r := leave_lobby s code player_id
    ⟨fabricDisconnect f code player_id, r.2, [Event.leaveEv player_id]⟩
  | .fault =>
    ⟨fabricDisconnect f code player_id, s, []⟩

/-! ### Hit resolution (`_resolve_hit` in `backend/app/main.py`)

The haversine distance and initial bearing are transcendental; they enter
the embedding as the function parameters `dist` and `bearing` (arguments:
shooter lat, shooter lon, candidate lat, candidate lon).  All control flow
of `_resolve_hit` is embedded exactly.  `candidates.sort(key=item[1])` is
Python's stable sort keyed by distance; `List.insertionSort` with `≤` on
the distance component is stable, so sorting with it and taking the head
is the same selection. -/

/-- Condition `if target_id and player.id != target_id` (a UUID object is always
truthy, so this tests only whether an explicit target was supplied). -/
def targetSkip (target_id : Option Nat) (pid : Nat) : Bool :=
  match target_id with
  | none => false
  | some t => pid ≠ t

/-- Function `_resolve_hit`: collect the candidates in roster order, sort stably by
distance, and return the head when any survived. -/
def _resolve_hit (dist bearing : ℚ → ℚ → ℚ → ℚ → ℚ)
    (shooter : PlayerState) (players : List PlayerState)
    (heading range_m : ℚ) (target_id : Option Nat) : Option (Nat × ℚ) :=
  let lock_angle : ℚ := 18
  let candidates := players.filterMap (fun player =>
    if player.id = shooter.id then none
    else if targetSkip target_id player.id then none
    else
      let distance := dist shooter.lat shooter.lon player.lat player.lon
      if distance > range_m then none
      else
        let b := bearing shooter.lat shooter.lon player.lat player.lon
        if heading_delta heading b ≤ lock_angle then some (player.id, distance)
        else none)
  (candidates.insertionSort (fun x y => x.2 ≤ y.2)).head?

/-! Spec-side restatement of §4.4, used to compare against `_resolve_hit`:
the candidate set, filtered by the range and lock-on checks, and the first
candidate (in roster order) attaining the minimum distance. -/

/-- First element attaining the minimum key, ties resolved to the earliest
element of the list. -/
def firstMinBy : List (Nat × ℚ) → Option (Nat × ℚ)
  | [] => none
  | x :: l =>
    match firstMinBy l with
    | none => some x
    | some b => if b.2 < x.2 then some b else some x

/-- Candidate set as §4.4 words it: every roster entry except the shooter,
restricted to the explicit target when supplied, keeping those within the
claimed range whose shortest-arc deviation from the claimed heading is at
most the 18° lock-on threshold. -/
def specCandidates (dist bearing : ℚ → ℚ → ℚ → ℚ → ℚ)
    (shooter : PlayerState) (players : List PlayerState)
    (heading range_m : ℚ) (target_id : Option Nat) : List (Nat × ℚ) :=
  (players.filter (fun p =>
    p.id ≠ shooter.id ∧
    (∀ t ∈ target_id, p.id = t) ∧
    dist shooter.lat shooter.lon p.lat p.lon ≤ range_m ∧
    heading_delta heading (bearing shooter.lat shooter.lon p.lat p.lon) ≤ 18)).map
    (fun p => (p.id, dist shooter.lat shooter.lon p.lat p.lon))

/-- The roster of the lobby stored under `code`, empty when the code is
unknown. -/
def rosterOf (s : Store) (code : String) : List (Nat × Player) :=
  match dictGet s code with
  | none => []
  | some lobby => lobby.players

/-! ### Concrete states used to exercise the theorems -/

def demoPlayer : Player := ⟨1, "host", 0, 0, 0, none, none, 0⟩

def demoLobby : Lobby := ⟨0, "AAAA", "demo", "ffa", [(1, demoPlayer)]⟩

def demoStore : Store := [("AAAA", demoLobby)]

def stalePlayer (i : Nat) : Player := ⟨i, "p", 0, 0, 0, none, none, 0⟩

def fullLobby : Lobby :=
  ⟨1, "BBBB", "full", "ffa", (List.range 16).map (fun i => (i, stalePlayer i))⟩

def fullStore : Store := [("BBBB", fullLobby)]

def freshPlayer : Player := ⟨2, "fresh", 0, 0, 0, none, none, 15⟩

def mixLobby : Lobby := ⟨2, "CCCC", "mix", "ffa", [(1, stalePlayer 1), (2, freshPlayer)]⟩

def mixStore : Store := [("CCCC", mixLobby)]

def demoFabric : Fabric := [("AAAA", [1, 2])]

/-! ### Association-table lemmas -/

theorem dictGet_eq_none {κ α : Type} [DecidableEq κ] {l : List (κ × α)} {k : κ}
    (h : ∀ kv ∈ l, kv.1 ≠ k) : dictGet l k = none := by
  induction l with
  | nil => rfl
  | cons kv rest ih =>
    have hk : kv.1 ≠ k := h kv (List.mem_cons_self _ _)
    simp only [dictGet, if_neg hk]
    exact ih (fun x hx => h x (List.mem_cons_of_mem _ hx))

theorem dictGet_dictSet_self {κ α : Type} [DecidableEq κ]
    (m : List (κ × α)) (k : κ) (v : α) : dictGet (dictSet m k v) k = some v := by
  unfold dictSet
  split
  · rename_i hany
    induction m with
    | nil => simp at hany
    | cons kv rest ih =>
      by_cases hk : kv.1 = k
      · simp [dictGet, hk]
      · simp only [List.any_cons, decide_eq_true_eq, Bool.or_eq_true] at hany
        rcases hany with h | h
        · exact absurd h hk
        · simpa [dictGet, hk] using ih (by simpa using h)
  · rename_i hany
    induction m with
    | nil => simp [dictGet]
    | cons kv rest ih =>
      simp only [List.any_cons, Bool.or_eq_true, decide_eq_true_eq, not_or] at hany
      simpa [dictGet, hany.1] using ih (by simp [hany.2])

theorem mem_dictSet_self {κ α : Type} [DecidableEq κ]
    (m : List (κ × α)) (k : κ) (v : α) : (k, v) ∈ dictSet m k v := by
  unfold dictSet
  split
  · rename_i hany
    rw [List.any_eq_true] at hany
    obtain ⟨x, hx, hxk⟩ := hany
    rw [decide_eq_true_eq] at hxk
    exact List.mem_map.mpr ⟨x, hx, by simp [hxk]⟩
  · exact List.mem_append.mpr (Or.inr (List.mem_singleton.mpr rfl))

theorem mem_dictSet_of_ne {κ α : Type} [DecidableEq κ]
    {m : List (κ × α)} {k' : κ} {v' : α} (k : κ) (v : α)
    (hmem : (k', v') ∈ m) (hne : k' ≠ k) : (k', v') ∈ dictSet m k v := by
  unfold dictSet
  split
  · exact List.mem_map.mpr ⟨(k', v'), hmem, by simp [hne]⟩
  · exact List.mem_append.mpr (Or.inl hmem)

theorem dictSet_keyed {κ α : Type} [DecidableEq κ]
    {m : List (κ × α)} {k : κ} {v : α} {kv : κ × α}
    (hmem : kv ∈ dictSet m k v) (hk : kv.1 = k) : kv.2 = v := by
  unfold dictSet at hmem
  rcases hsplit : m.any (fun kv => decide (kv.1 = k)) with _ | _
  · rw [hsplit] at hmem
    simp only [Bool.false_eq_true, if_false] at hmem
    rcases List.mem_append.mp hmem with h | h
    · rw [List.any_eq_false] at hsplit
      exact absurd hk (by simpa using hsplit kv h)
    · rw [List.mem_singleton.mp h]
  · rw [hsplit] at hmem
    simp only [if_true] at hmem
    obtain ⟨x, _, hfx⟩ := List.mem_map.mp hmem
    by_cases hx : x.1 = k
    · rw [if_pos hx] at hfx
      rw [← hfx]
    · rw [if_neg hx] at hfx
      exact absurd (hfx ▸ hk) hx

theorem dictGet_filter_keyed {κ α : Type} [DecidableEq κ]
    {m : List (κ × α)} {k : κ} {v : α} {pred : κ × α → Bool}
    (hall : ∀ kv ∈ m, kv.1 = k → kv.2 = v) (hmem : (k, v) ∈ m)
    (hpred : pred (k, v) = true) : dictGet (m.filter pred) k = some v := by
  induction m with
  | nil => cases hmem
  | cons kv rest ih =>
    by_cases hk : kv.1 = k
    · have hv : kv.2 = v := hall kv (List.mem_cons_self _ _) hk
      have hkv : kv = (k, v) := Prod.ext hk hv
      subst hkv
      rw [List.filter_cons_of_pos hpred]
      simp [dictGet]
    · have hmem' : (k, v) ∈ rest := by
        rcases List.mem_cons.mp hmem with h | h
        · exact absurd (congrArg Prod.fst h.symm) hk
        · exact h
      have ih' := ih (fun x hx => hall x (List.mem_cons_of_mem _ hx)) hmem'
      by_cases hp : pred kv = true
      · rw [List.filter_cons_of_pos hp]
        simpa [dictGet, hk] using ih'
      · rw [List.filter_cons_of_neg (by simpa using hp)]
        exact ih'

/-- Stored value after an upsert survives any sweep predicate it satisfies. -/
theorem dictGet_filter_dictSet {κ α : Type} [DecidableEq κ]
    (m : List (κ × α)) (k : κ) (v : α) {pred : κ × α → Bool}
    (hpred : pred (k, v) = true) :
    dictGet ((dictSet m k v).filter pred) k = some v :=
  dictGet_filter_keyed (fun _ hkv hk => dictSet_keyed hkv hk)
    (mem_dictSet_self m k v) hpred

theorem dictGet_dictPop_self {κ α : Type} [DecidableEq κ]
    (m : List (κ × α)) (k : κ) : dictGet (dictPop m k) k = none := by
  refine dictGet_eq_none (fun kv hkv => ?_)
  have := List.mem_filter.mp hkv
  simpa using this.2

/-! ### Stable sort and first minimum -/

theorem head_insertionSort_eq_firstMinBy (l : List (Nat × ℚ)) :
    (l.insertionSort (fun x y => x.2 ≤ y.2)).head? = firstMinBy l := by
  induction l with
  | nil => rfl
  | cons a l ih =>
    show (List.orderedInsert _ a (l.insertionSort _)).head? = _
    cases hs : l.insertionSort (fun x y => x.2 ≤ y.2) with
    | nil =>
      have hl : l = [] :=
        ((hs ▸ List.perm_insertionSort (fun x y : Nat × ℚ => x.2 ≤ y.2) l).symm).eq_nil
      subst hl
      rfl
    | cons b t =>
      have hb : firstMinBy l = some b := by
        rw [← ih, hs]
        rfl
      have hfm : firstMinBy (a :: l) = if b.2 < a.2 then some b else some a := by
        simp [firstMinBy, hb]
      rw [List.orderedInsert, hfm]
      by_cases h : a.2 ≤ b.2
      · rw [if_pos h, if_neg (not_lt.mpr h)]
        rfl
      · rw [if_neg h, if_pos (not_le.mp h)]
        rfl

/-- The candidate list built by `_resolve_hit`'s loop equals the §4.4
candidate set. -/
theorem resolveCandidates_eq_spec (dist bearing : ℚ → ℚ → ℚ → ℚ → ℚ)
    (shooter : PlayerState) (players : List PlayerState)
    (heading range_m : ℚ) (target_id : Option Nat) :
    (players.filterMap (fun player =>
      if player.id = shooter.id then none
      else if targetSkip target_id player.id then none
      else
        if dist shooter.lat shooter.lon player.lat player.lon > range_m then none
        else
          if heading_delta heading
              (bearing shooter.lat shooter.lon player.lat player.lon) ≤ 18 then
            some (player.id, dist shooter.lat shooter.lon player.lat player.lon)
          else none)) =
    specCandidates dist bearing shooter players heading range_m target_id := by
  induction players with
  | nil => rfl
  | cons p rest ih =>
    rw [List.filterMap_cons]
    unfold specCandidates
    unfold specCandidates at ih
    by_cases h1 : p.id = shooter.id
    · rw [if_pos h1, List.filter_cons_of_neg (by simp [h1]), ih]
    · rw [if_neg h1]
      by_cases h2 : targetSkip target_id p.id = true
      · have htgt : ¬ ∀ t ∈ target_id, p.id = t := by
          cases target_id with
          | none => simp [targetSkip] at h2
          | some t =>
            simp only [targetSkip, decide_eq_true_eq] at h2
            simp [h2]
        rw [if_pos h2,
          List.filter_cons_of_neg
            (by simp only [decide_eq_true_eq]; exact fun hc => htgt hc.2.1),
          ih]
      · have htgt : ∀ t ∈ target_id, p.id = t := by
          cases target_id with
          | none => simp
          | some t =>
            simp only [targetSkip, decide_eq_true_eq, not_not] at h2
            simp [h2]
        rw [if_neg h2]
        by_cases h3 : dist shooter.lat shooter.lon p.lat p.lon > range_m
        · rw [if_pos h3, List.filter_cons_of_neg (by simp [not_le.mpr h3]), ih]
        · rw [if_neg h3]
          by_cases h4 : heading_delta heading
              (bearing shooter.lat shooter.lon p.lat p.lon) ≤ 18
          · rw [if_pos h4,
              List.filter_cons_of_pos
                (by simp only [decide_eq_true_eq]
                    exact ⟨h1, htgt, not_lt.mp h3, h4⟩),
              List.map_cons, ih]
          · rw [if_neg h4, List.filter_cons_of_neg (by simp [h4]), ih]

/-- C1: for every shot resolution, the candidate set is every current
roster entry except the shooter, restricted to the explicit target when
one is supplied (range and angle checks still applied); candidates beyond
the claimed range or beyond the 18° shortest-arc lock-on threshold are
discarded; the result is the surviving candidate with minimum distance,
ties resolved to the first in roster iteration order, or no hit when no
candidate survives. -/
theorem resolve_hit_spec (dist bearing : ℚ → ℚ → ℚ → ℚ → ℚ)
    (shooter : PlayerState) (players : List PlayerState)
    (heading range_m : ℚ) (target_id : Option Nat) :
    _resolve_hit dist bearing shooter players heading range_m target_id =
      firstMinBy (specCandidates dist bearing shooter players heading range_m target_id) := by
  simp only [_resolve_hit]
  rw [resolveCandidates_eq_spec]
  exact head_insertionSort_eq_firstMinBy _

/-! ### Join capacity (C2, C10) -/

/-- C2: `join_lobby` fails with `NotFound` on an unknown code, fails with
`Full` exactly when the lobby currently holds at least 16 participants,
and otherwise writes a fresh participant at position (0,0), heading 0,
with no zone key or label. -/
theorem join_lobby_spec (s : Store) (code : String) (player_id : Nat)
    (name : String) (now : ℚ) :
    (dictGet s code = none →
      join_lobby s code player_id name now = (.notFound, s)) ∧
    (∀ lobby, dictGet s code = some lobby →
      (16 ≤ lobby.players.length →
        join_lobby s code player_id name now = (.full, s)) ∧
      (lobby.players.length < 16 →
        ∃ lobby',
          join_lobby s code player_id name now = (.ok lobby', dictSet s code lobby') ∧
          dictGet lobby'.players player_id =
            some ⟨player_id, name, 0, 0, 0, none, none, now⟩)) := by
  refine ⟨fun h => ?_, fun lobby h => ⟨fun hfull => ?_, fun hroom => ?_⟩⟩
  · simp [join_lobby, h]
  · simp [join_lobby, h, MAX_PLAYERS, hfull]
  · refine ⟨{ lobby with
        players := dictSet lobby.players player_id (Player.mk player_id name 0 0 0 none none now) }, ?_, ?_⟩
    · simp [join_lobby, h, MAX_PLAYERS, not_le.mpr hroom]
    · exact dictGet_dictSet_self _ _ _

/-- Witness for C2 at concrete states: an unknown code, a full lobby, and
a lobby with room. -/
theorem join_lobby_spec_witness :
    join_lobby demoStore "ZZZZ" 7 "x" 1 = (.notFound, demoStore) ∧
    join_lobby fullStore "BBBB" 99 "x" 20 = (.full, fullStore) ∧
    (∃ lobby',
      join_lobby demoStore "AAAA" 7 "x" 1 = (.ok lobby', dictSet demoStore "AAAA" lobby') ∧
      dictGet lobby'.players 7 = some ⟨7, "x", 0, 0, 0, none, none, 1⟩) :=
  ⟨(join_lobby_spec demoStore "ZZZZ" 7 "x" 1).1 rfl,
   ((join_lobby_spec fullStore "BBBB" 99 "x" 20).2 fullLobby rfl).1 (by decide),
   ((join_lobby_spec demoStore "AAAA" 7 "x" 1).2 demoLobby rfl).2 (by decide)⟩

/-- C10: `join_lobby` never runs the staleness sweep — a lobby whose table
holds 16 entries rejects a join with `Full` even when every entry is
stale, while a `list_players` call at the same instant would evict them
all. -/
theorem join_counts_stale (s : Store) (code : String) (lobby : Lobby)
    (player_id : Nat) (name : String) (now : ℚ)
    (hlob : dictGet s code = some lobby)
    (hlen : lobby.players.length = 16)
    (hstale : ∀ kv ∈ lobby.players, STALE_AFTER < now - kv.2.last_seen) :
    (join_lobby s code player_id name now).1 = .full ∧
    (list_players s code now).1 = [] := by
  constructor
  · simp [join_lobby, hlob, MAX_PLAYERS, hlen]
  · have hnil : lobby.players.filter
        (fun kv => now - kv.2.last_seen ≤ STALE_AFTER) = [] := by
      rw [List.filter_eq_nil_iff]
      intro kv hkv
      simpa using not_le.mpr (hstale kv hkv)
    simp only [list_players, hlob, _prune_stale_locked]
    rw [hnil]
    rfl

/-- Witness for C10: sixteen participants, all stale for 20 seconds, still
fill the lobby for a join, yet vanish from a roster read. -/
theorem join_counts_stale_witness :
    (join_lobby fullStore "BBBB" 77 "late" 20).1 = .full ∧
    (list_players fullStore "BBBB" 20).1 = [] :=
  join_counts_stale fullStore "BBBB" fullLobby 77 "late" 20 rfl
    (by simp [fullLobby])
    (by norm_num [fullLobby, stalePlayer, List.forall_mem_map, STALE_AFTER])

/-! ### Staleness eviction (C3) -/

/-- A record written at `now` survives the staleness sweep run at `now`. -/
theorem dictGet_pruneList (players : List (Nat × Player)) (pid : Nat)
    (p : Player) (now : ℚ) (hfresh : now - p.last_seen ≤ STALE_AFTER) :
    dictGet ((dictSet players pid p).filter
      (fun kv => now - kv.2.last_seen ≤ STALE_AFTER)) pid = some p :=
  dictGet_filter_dictSet _ _ _ (by simpa using hfresh)

/-- C3: a participant more than 10 seconds stale is absent from the next
`list_players` snapshot and from the lobby roster left behind by the next
`upsert_presence` call; a participant exactly 10 seconds old or fresher is
retained by both. -/
theorem stale_eviction_spec (s : Store) (code : String) (lobby : Lobby)
    (pid : Nat) (p : Player) (now : ℚ) (qid : Nat) (qname : String)
    (qlat qlon qhd : ℚ) (qzk qzl : Option String)
    (hlob : dictGet s code = some lobby) (hmem : (pid, p) ∈ lobby.players) :
    (STALE_AFTER < now - p.last_seen →
      p.to_state ∉ (list_players s code now).1 ∧
      (pid, p) ∉ rosterOf
        (upsert_presence s code qid qname qlat qlon qhd qzk qzl now).2 code) ∧
    (now - p.last_seen ≤ STALE_AFTER →
      p.to_state ∈ (list_players s code now).1 ∧
      (pid ≠ qid → (pid, p) ∈ rosterOf
        (upsert_presence s code qid qname qlat qlon qhd qzk qzl now).2 code)) := by
  have hroster : rosterOf
      (upsert_presence s code qid qname qlat qlon qhd qzk qzl now).2 code =
      (dictSet lobby.players qid
        ⟨qid, qname, qlat, qlon, qhd, some (strOr qzk (zone_key qlat qlon)),
          some (strOr qzl (zone_label qlat qlon)), now⟩).filter
        (fun kv => now - kv.2.last_seen ≤ STALE_AFTER) := by
    simp only [upsert_presence, hlob, _prune_stale_locked, rosterOf,
      dictGet_dictSet_self]
  have hlist : (list_players s code now).1 =
      (lobby.players.filter
        (fun kv => now - kv.2.last_seen ≤ STALE_AFTER)).map
        (fun kv => kv.2.to_state) := by
    simp only [list_players, hlob, _prune_stale_locked]
  refine ⟨fun hstale => ⟨?_, ?_⟩, fun hfresh => ⟨?_, fun hne => ?_⟩⟩
  · rw [hlist]
    intro hin
    obtain ⟨kv, hkv, hst⟩ := List.mem_map.mp hin
    have hkeep := (List.mem_filter.mp hkv).2
    rw [decide_eq_true_eq] at hkeep
    have hls : kv.2.last_seen = p.last_seen :=
      congrArg PlayerState.last_seen hst
    rw [hls] at hkeep
    exact absurd hkeep (not_le.mpr hstale)
  · rw [hroster]
    intro hin
    have hkeep := (List.mem_filter.mp hin).2
    rw [decide_eq_true_eq] at hkeep
    exact absurd hkeep (not_le.mpr hstale)
  · rw [hlist]
    refine List.mem_map.mpr ⟨(pid, p), List.mem_filter.mpr ⟨hmem, ?_⟩, rfl⟩
    rw [decide_eq_true_eq]
    exact hfresh
  · rw [hroster]
    refine List.mem_filter.mpr ⟨mem_dictSet_of_ne _ _ hmem hne, ?_⟩
    rw [decide_eq_true_eq]
    exact hfresh

/-- Witness for C3: in a lobby read at time 20, the participant last seen
at time 0 is evicted and the one last seen at time 15 is retained, both
for a roster read and across an unrelated presence upsert. -/
theorem stale_eviction_spec_witness :
    (STALE_AFTER < (20 : ℚ) - (stalePlayer 1).last_seen ∧
      ((stalePlayer 1).to_state ∉ (list_players mixStore "CCCC" 20).1 ∧
        (1, stalePlayer 1) ∉ rosterOf
          (upsert_presence mixStore "CCCC" 9 "q" 0 0 0 none none 20).2 "CCCC")) ∧
    ((20 : ℚ) - freshPlayer.last_seen ≤ STALE_AFTER ∧
      (freshPlayer.to_state ∈ (list_players mixStore "CCCC" 20).1 ∧
        (2, freshPlayer) ∈ rosterOf
          (upsert_presence mixStore "CCCC" 9 "q" 0 0 0 none none 20).2 "CCCC")) :=
  ⟨⟨by norm_num [stalePlayer, STALE_AFTER],
    (stale_eviction_spec mixStore "CCCC" mixLobby 1 (stalePlayer 1) 20 9 "q"
        0 0 0 none none rfl (by simp [mixLobby])).1
      (by norm_num [stalePlayer, STALE_AFTER])⟩,
   ⟨by norm_num [freshPlayer, STALE_AFTER],
    ⟨((stale_eviction_spec mixStore "CCCC" mixLobby 2 freshPlayer 20 9 "q"
          0 0 0 none none rfl (by simp [mixLobby])).2
        (by norm_num [freshPlayer, STALE_AFTER])).1,
      ((stale_eviction_spec mixStore "CCCC" mixLobby 2 freshPlayer 20 9 "q"
          0 0 0 none none rfl (by simp [mixLobby])).2
        (by norm_num [freshPlayer, STALE_AFTER])).2 (by decide)⟩⟩⟩

/-! ### Presence upserts (C4, C9, C6) -/

/-- After an upsert against a known lobby, the lobby is still stored under
its code and the upserted identity's record carries the supplied fields
and the current timestamp. -/
theorem upsert_known (s : Store) (code : String) (lobby : Lobby) (pid : Nat)
    (name : String) (lat lon hd : ℚ) (zk zl : Option String) (now : ℚ)
    (hlob : dictGet s code = some lobby) :
    (∃ lobby', dictGet
      (upsert_presence s code pid name lat lon hd zk zl now).2 code = some lobby') ∧
    (upsert_presence s code pid name lat lon hd zk zl now).1 =
      some ⟨pid, name, lat, lon, hd, some (strOr zk (zone_key lat lon)),
        some (strOr zl (zone_label lat lon)), now⟩ ∧
    lastSeenOf
      (upsert_presence s code pid name lat lon hd zk zl now).2 code pid = some now := by
  have hfresh : now - now ≤ STALE_AFTER := by norm_num [STALE_AFTER]
  have hget := dictGet_pruneList lobby.players pid
    ⟨pid, name, lat, lon, hd, some (strOr zk (zone_key lat lon)),
      some (strOr zl (zone_label lat lon)), now⟩ now hfresh
  refine ⟨⟨_prune_stale_locked now { lobby with
      players := dictSet lobby.players pid (Player.mk pid name lat lon hd (some (strOr zk (zone_key lat lon))) (some (strOr zl (zone_label lat lon))) now) }, ?_⟩, ?_, ?_⟩
  · simp only [upsert_presence, hlob]
    exact dictGet_dictSet_self _ _ _
  · simp only [upsert_presence, hlob, _prune_stale_locked]
    rw [hget]
    rfl
  · simp only [lastSeenOf, upsert_presence, hlob, _prune_stale_locked,
      dictGet_dictSet_self, Option.some_bind]
    rw [hget]
    rfl

/-- C4: for a known lobby, `upsert_presence` always succeeds and
creates-or-replaces the participant record with the supplied name,
position and heading — no prior join is required; it returns `none`
(NotFound) only when the lobby code is unknown, leaving the store
untouched. -/
theorem upsert_resurrection_spec (s : Store) (code : String) (pid : Nat)
    (name : String) (lat lon hd : ℚ) (zk zl : Option String) (now : ℚ) :
    (dictGet s code = none →
      upsert_presence s code pid name lat lon hd zk zl now = (none, s)) ∧
    (∀ lobby, dictGet s code = some lobby →
      (upsert_presence s code pid name lat lon hd zk zl now).1 =
        some ⟨pid, name, lat, lon, hd, some (strOr zk (zone_key lat lon)),
          some (strOr zl (zone_label lat lon)), now⟩ ∧
      lastSeenOf
        (upsert_presence s code pid name lat lon hd zk zl now).2 code pid =
          some now) := by
  constructor
  · intro h
    simp [upsert_presence, h]
  · intro lobby hlob
    exact ⟨(upsert_known s code lobby pid name lat lon hd zk zl now hlob).2.1,
      (upsert_known s code lobby pid name lat lon hd zk zl now hlob).2.2⟩

/-- Witness for C4: identity 42 never joined `demoLobby`, yet its upsert
succeeds and stores a record; an unknown code yields `none` untouched. -/
theorem upsert_resurrection_spec_witness :
    upsert_presence demoStore "ZZZZ" 42 "ghost" 1 2 3 none none 1 =
      (none, demoStore) ∧
    ((upsert_presence demoStore "AAAA" 42 "ghost" 1 2 3 none none 1).1 =
      some ⟨42, "ghost", 1, 2, 3, some (strOr none (zone_key 1 2)),
        some (strOr none (zone_label 1 2)), 1⟩ ∧
    lastSeenOf
      (upsert_presence demoStore "AAAA" 42 "ghost" 1 2 3 none none 1).2
        "AAAA" 42 = some 1) :=
  ⟨(upsert_resurrection_spec demoStore "ZZZZ" 42 "ghost" 1 2 3 none none 1).1 rfl,
   (upsert_resurrection_spec demoStore "AAAA" 42 "ghost" 1 2 3 none none 1).2
     demoLobby rfl⟩

/-- C9: across two successive presence updates for the same participant at
wall-clock instants `t1 < t2`, the stored last-update timestamp after the
second update is strictly greater than after the first. -/
theorem last_seen_strictly_increases (s : Store) (code : String)
    (lobby : Lobby) (pid : Nat) (name1 name2 : String)
    (lat1 lon1 hd1 lat2 lon2 hd2 : ℚ) (zk1 zl1 zk2 zl2 : Option String)
    (t1 t2 : ℚ) (hlob : dictGet s code = some lobby) (ht : t1 < t2) :
    ∃ q1 q2,
      lastSeenOf
        (upsert_presence s code pid name1 lat1 lon1 hd1 zk1 zl1 t1).2
          code pid = some q1 ∧
      lastSeenOf
        (upsert_presence
          (upsert_presence s code pid name1 lat1 lon1 hd1 zk1 zl1 t1).2
          code pid name2 lat2 lon2 hd2 zk2 zl2 t2).2 code pid = some q2 ∧
      q1 < q2 := by
  obtain ⟨⟨lobby1, hlob1⟩, -, hq1⟩ :=
    upsert_known s code lobby pid name1 lat1 lon1 hd1 zk1 zl1 t1 hlob
  obtain ⟨-, -, hq2⟩ :=
    upsert_known _ code lobby1 pid name2 lat2 lon2 hd2 zk2 zl2 t2 hlob1
  exact ⟨t1, t2, hq1, hq2, ht⟩

/-- Witness for C9 at concrete instants 1 and 2. -/
theorem last_seen_strictly_increases_witness :
    ∃ q1 q2,
      lastSeenOf
        (upsert_presence demoStore "AAAA" 1 "a" 0 0 0 none none 1).2
          "AAAA" 1 = some q1 ∧
      lastSeenOf
        (upsert_presence
          (upsert_presence demoStore "AAAA" 1 "a" 0 0 0 none none 1).2
          "AAAA" 1 "a" 0 0 0 none none 2).2 "AAAA" 1 = some q2 ∧
      q1 < q2 :=
  last_seen_strictly_increases demoStore "AAAA" demoLobby 1 "a" "a"
    0 0 0 0 0 0 none none none none 1 2 rfl (by norm_num)

/-! ### Connection teardown and unknown-lobby presence (C5, C7) -/

/-- Removing a registration leaves the room without that id. -/
theorem dictGet_fabricDisconnect (f : Fabric) (code : String) (pid : Nat) :
    ∀ room, dictGet (fabricDisconnect f code pid) code = some room →
      pid ∉ room := by
  intro room hroom
  unfold fabricDisconnect at hroom
  cases hf : dictGet f code with
  | none =>
    rw [hf] at hroom
    rw [hf] at hroom
    cases hroom
  | some r =>
    rw [hf] at hroom
    rw [dictGet_dictSet_self] at hroom
    cases hroom
    intro hin
    simpa using (List.mem_filter.mp hin).2

/-- C5: an explicit peer-initiated close removes the fabric registration,
removes the participant from the store, and broadcasts a `leave` event;
any other loop fault removes only the fabric registration — the store is
left unchanged and nothing is broadcast. -/
theorem loop_exit_asymmetry (f : Fabric) (s : Store) (code : String)
    (pid : Nat) :
    ((onLoopExit .peerClose f s code pid).events = [Event.leaveEv pid] ∧
      dictGet (rosterOf (onLoopExit .peerClose f s code pid).store code) pid =
        none ∧
      (∀ room, dictGet (onLoopExit .peerClose f s code pid).fabric code =
        some room → pid ∉ room)) ∧
    ((onLoopExit .fault f s code pid).events = [] ∧
      (onLoopExit .fault f s code pid).store = s ∧
      (∀ room, dictGet (onLoopExit .fault f s code pid).fabric code =
        some room → pid ∉ room)) := by
  refine ⟨⟨rfl, ?_, dictGet_fabricDisconnect f code pid⟩,
    rfl, rfl, dictGet_fabricDisconnect f code pid⟩
  show dictGet (rosterOf (leave_lobby s code pid).2 code) pid = none
  unfold leave_lobby
  cases hs : dictGet s code with
  | none =>
    simp only [rosterOf, hs]
    rfl
  | some lobby =>
    simp only [rosterOf, dictGet_dictSet_self]
    exact dictGet_dictPop_self _ _

/-- Witness for C5 at a concrete fabric, store and participant. -/
theorem loop_exit_asymmetry_witness :
    ((onLoopExit .peerClose demoFabric demoStore "AAAA" 1).events =
        [Event.leaveEv 1] ∧
      dictGet (rosterOf (onLoopExit .peerClose demoFabric demoStore "AAAA" 1).store
        "AAAA") 1 = none ∧
      (1 : Nat) ∉ [2]) ∧
    ((onLoopExit .fault demoFabric demoStore "AAAA" 1).events = [] ∧
      (onLoopExit .fault demoFabric demoStore "AAAA" 1).store = demoStore ∧
      (1 : Nat) ∉ [2]) :=
  ⟨⟨(loop_exit_asymmetry demoFabric demoStore "AAAA" 1).1.1,
    (loop_exit_asymmetry demoFabric demoStore "AAAA" 1).1.2.1,
    (loop_exit_asymmetry demoFabric demoStore "AAAA" 1).1.2.2 [2] rfl⟩,
   ⟨(loop_exit_asymmetry demoFabric demoStore "AAAA" 1).2.1,
    (loop_exit_asymmetry demoFabric demoStore "AAAA" 1).2.2.1,
    (loop_exit_asymmetry demoFabric demoStore "AAAA" 1).2.2.2 [2] rfl⟩⟩

/-- C7: a `presence` message naming a lobby code unknown to the store
performs no broadcast and emits no error event, the store is unchanged,
and the message loop continues. -/
theorem presence_unknown_silent (s : Store) (code : String) (pid : Nat)
    (name : String) (lat lon hd : ℚ) (zk zl : Option String) (now : ℚ)
    (h : dictGet s code = none) :
    handlePresence s code pid name lat lon hd zk zl now =
      (s, [], .continueLoop) := by
  simp [handlePresence, upsert_presence, h]

/-- Witness for C7: code `ZZZZ` is not in the demo store. -/
theorem presence_unknown_silent_witness :
    handlePresence demoStore "ZZZZ" 5 "n" 0 0 0 none none 1 =
      (demoStore, [], .continueLoop) :=
  presence_unknown_silent demoStore "ZZZZ" 5 "n" 0 0 0 none none 1 rfl

/-! ### Lobby creation (C8) -/

/-- Any code `_generate_code` returns is four symbols of the draw stream
and free in the store. -/
theorem generate_code_ok (pick : Nat → Char) (s : Store)
    (hpick : ∀ n, pick n ∈ ALPHABET) :
    ∀ fuel t code, _generate_code pick s t fuel = some code →
      code.length = 4 ∧ (∀ c ∈ code.toList, c ∈ ALPHABET) ∧
      dictGet s code = none := by
  intro fuel
  induction fuel with
  | zero =>
    intro t code h
    cases h
  | succ n ih =>
    intro t code h
    unfold _generate_code at h
    by_cases hc : (dictGet s (codeAt pick t)).isSome
    · rw [if_pos hc] at h
      exact ih (t + 1) code h
    · rw [if_neg hc] at h
      have hcode := Option.some.inj h
      subst hcode
      refine ⟨rfl, ?_, Option.not_isSome_iff_eq_none.mp hc⟩
      intro c hcmem
      have hl : (codeAt pick t).toList =
          [pick (4 * t), pick (4 * t + 1), pick (4 * t + 2), pick (4 * t + 3)] := rfl
      rw [hl] at hcmem
      rcases hcmem with _ | ⟨_, _ | ⟨_, _ | ⟨_, _ | ⟨_, h5⟩⟩⟩⟩
      · exact hpick _
      · exact hpick _
      · exact hpick _
      · exact hpick _
      · cases h5

/-- C8: a lobby created by `create_lobby` carries a code of exactly four
symbols from the 36-symbol alphabet A–Z,0–9 that differs from every
currently-live code, and its roster holds exactly the host at position
(0,0), heading 0, with no zone key or label. -/
theorem create_lobby_spec (pick : Nat → Char) (fuel : Nat) (s : Store)
    (name mode : String) (host_id : Nat) (host_name : String)
    (lobby_id : Nat) (now : ℚ) (lobby : Lobby) (s' : Store)
    (hpick : ∀ n, pick n ∈ ALPHABET)
    (hok : create_lobby pick fuel s name mode host_id host_name lobby_id now =
      some (lobby, s')) :
    lobby.code.length = 4 ∧ (∀ c ∈ lobby.code.toList, c ∈ ALPHABET) ∧
    dictGet s lobby.code = none ∧
    lobby.players = [(host_id, ⟨host_id, host_name, 0, 0, 0, none, none, now⟩)] := by
  unfold create_lobby at hok
  cases hg : _generate_code pick s 0 fuel with
  | none =>
    rw [hg] at hok
    cases hok
  | some code =>
    rw [hg] at hok
    have hpair := Option.some.inj hok
    have hlobby : lobby = ⟨lobby_id, code, name, mode,
        [(host_id, ⟨host_id, host_name, 0, 0, 0, none, none, now⟩)]⟩ :=
      (congrArg Prod.fst hpair).symm
    subst hlobby
    obtain ⟨h1, h2, h3⟩ := generate_code_ok pick s hpick fuel 0 code hg
    exact ⟨h1, h2, h3, rfl⟩

/-- Witness for C8: a constant draw stream of `A` over the empty store
produces the lobby coded `AAAA` with only the host enrolled. -/
theorem create_lobby_spec_witness :
    ∃ lobby s',
      create_lobby (fun _ => 'A') 1 [] "l" "m" 5 "h" 9 0 = some (lobby, s') ∧
      lobby.code.length = 4 ∧ (∀ c ∈ lobby.code.toList, c ∈ ALPHABET) ∧
      dictGet ([] : Store) lobby.code = none ∧
      lobby.players = [(5, ⟨5, "h", 0, 0, 0, none, none, 0⟩)] :=
  ⟨⟨9, "AAAA", "l", "m", [(5, ⟨5, "h", 0, 0, 0, none, none, 0⟩)]⟩, _, rfl,
    create_lobby_spec (fun _ => 'A') 1 [] "l" "m" 5 "h" 9 0 _ _
      (fun _ => (by decide : 'A' ∈ ALPHABET)) rfl⟩

/-! ### Zone resolution on presence upserts (C6) -/

/-- Counterexample to C6 as stated: the caller supplies the empty string
for both zone fields, yet the stored snapshot carries the derived values,
because Python `or` treats the supplied empty string as falsy. -/
theorem zone_supplied_counterexample :
    (upsert_presence demoStore "AAAA" 3 "n" (1/2) (1/2) 0 (some "") (some "")
        1).1.map PlayerState.zone_key = some (some "0.5:0.5") ∧
    (upsert_presence demoStore "AAAA" 3 "n" (1/2) (1/2) 0 (some "") (some "")
        1).1.map PlayerState.zone_label = some (some "GRID-2") ∧
    ("0.5:0.5" : String) ≠ "" ∧ ("GRID-2" : String) ≠ "" := by
  have habs : |(1/2 : ℚ)| = 1/2 := abs_of_nonneg (by norm_num)
  have hkey : zone_key (1/2) (1/2) = "0.5:0.5" := by
    norm_num [zone_key, roundHalfEven, fmt3, fracDigits]
    rfl
  have hlabel : zone_label (1/2) (1/2) = "GRID-2" := by
    have h0 : ⌊|(1/2 : ℚ)| * 1000⌋ = 500 := by
      rw [habs]
      norm_num
    simp only [zone_label, h0]
    rfl
  have h := (upsert_known demoStore "AAAA" demoLobby 3 "n" (1/2) (1/2) 0
    (some "") (some "") 1 rfl).2.1
  refine ⟨?_, ?_, by decide, by decide⟩
  · rw [h, Option.map_some']
    show some (some (strOr (some "") (zone_key (1/2) (1/2)))) =
      some (some "0.5:0.5")
    rw [hkey]
    rfl
  · rw [h, Option.map_some']
    show some (some (strOr (some "") (zone_label (1/2) (1/2)))) =
      some (some "GRID-2")
    rw [hlabel]
    rfl

/-- C6 as amended: the stored zone key and label equal the caller-supplied
values whenever the caller supplies a non-empty string, and are derived
from (lat, lon) via the bucketing functions exactly when the caller omits
them or supplies the empty string; the derived label always lies in
GRID-1 … GRID-9. -/
theorem zone_resolution_amended (s : Store) (code : String) (lobby : Lobby)
    (pid : Nat) (name : String) (lat lon hd : ℚ) (zk zl : Option String)
    (now : ℚ) (hlob : dictGet s code = some lobby) :
    ∃ ps, (upsert_presence s code pid name lat lon hd zk zl now).1 = some ps ∧
      (∀ k, zk = some k → k ≠ "" → ps.zone_key = some k) ∧
      (zk = none ∨ zk = some "" → ps.zone_key = some (zone_key lat lon)) ∧
      (∀ k, zl = some k → k ≠ "" → ps.zone_label = some k) ∧
      (zl = none ∨ zl = some "" → ps.zone_label = some (zone_label lat lon)) ∧
      (∃ r, 1 ≤ r ∧ r ≤ 9 ∧ zone_label lat lon = "GRID-" ++ toString r) := by
  refine ⟨_, (upsert_known s code lobby pid name lat lon hd zk zl now hlob).2.1,
    ?_, ?_, ?_, ?_, ?_⟩
  · intro k hk hne
    subst hk
    simp [strOr, hne]
  · intro hk
    rcases hk with hk | hk <;> subst hk <;> simp [strOr]
  · intro k hk hne
    subst hk
    simp [strOr, hne]
  · intro hk
    rcases hk with hk | hk <;> subst hk <;> simp [strOr]
  · refine ⟨((⌊|lat| * 1000⌋).toNat + (⌊|lon| * 1000⌋).toNat) % 9 + 1,
      Nat.le_add_left 1 _, ?_, rfl⟩
    have := Nat.mod_lt ((⌊|lat| * 1000⌋).toNat + (⌊|lon| * 1000⌋).toNat)
      (show 0 < 9 by norm_num)
    omega

/-- Witness for the amended C6: a non-empty supplied key is kept, an
omitted one is derived. -/
theorem zone_resolution_amended_witness :
    ∃ ps, (upsert_presence demoStore "AAAA" 3 "n" (1/2) (1/2) 0 (some "ZK")
        (some "ZL") 1).1 = some ps ∧
      (∀ k, (some "ZK" : Option String) = some k → k ≠ "" →
        ps.zone_key = some k) ∧
      ((some "ZK" : Option String) = none ∨ (some "ZK" : Option String) = some "" →
        ps.zone_key = some (zone_key (1/2) (1/2))) ∧
      (∀ k, (some "ZL" : Option String) = some k → k ≠ "" →
        ps.zone_label = some k) ∧
      ((some "ZL" : Option String) = none ∨ (some "ZL" : Option String) = some "" →
        ps.zone_label = some (zone_label (1/2) (1/2))) ∧
      (∃ r, 1 ≤ r ∧ r ≤ 9 ∧ zone_label (1/2) (1/2) = "GRID-" ++ toString r) :=
  zone_resolution_amended demoStore "AAAA" demoLobby 3 "n" (1/2) (1/2) 0
    (some "ZK") (some "ZL") 1 rfl
